import Mathlib

/-!
Shallow embedding of the Commission Tracker application's business logic.

Conventions used throughout:
* JavaScript numbers are modelled as rationals (`ℚ`); the handlers under
  study perform only exact field arithmetic on small decimals.
* Optional string fields (`receipt_number?`, `client_paid_date?`,
  `company_paid_date?`, `note?`, `file_name?`, `team_id?`) are modelled as
  `String` with `""` standing for `undefined`; every truthiness test the
  source performs on such a field (`!entry.company_paid_date`,
  `item.receipt_number ? _ : _`, ...) treats `undefined` and `""` alike, so
  the collapse is observation-preserving for the embedded handlers.
* `window.prompt` / `window.confirm` results are passed in as explicit
  arguments (`Option String` / `Bool`): the handlers are deterministic in
  the answer the user gives.
* `crypto.randomUUID()` results are passed in as explicit `String`
  (or `Nat → String`) arguments.
-/

namespace CommissionTracker

/-- JavaScript `String.prototype.toUpperCase()`, modelled characterwise over
the string's characters (the currency codes in play are ASCII). -/
def jsToUpper (s : String) : String := String.mk (s.data.map Char.toUpper)

/-- JavaScript `String.prototype.toLowerCase()`, modelled characterwise
(used by the case-insensitive duplicate checks). -/
def jsToLower (s : String) : String := String.mk (s.data.map Char.toLower)

/-- The `CommissionStatus` enum from types.ts (`unpaid`/`eligible`/`paid`). -/
inductive CommissionStatus where
  | unpaid
  | eligible
  | paid
deriving DecidableEq, Repr

/-- The `UserRole` enum from types.ts. -/
inductive UserRole where
  | admin
  | manager
  | user
deriving DecidableEq, Repr

/-- The `Profile` interface from types.ts (fields not consulted by the embedded
handlers, such as `avatar_url`, are omitted; `team_id?` is `""` when absent). -/
structure Profile where
  id : String
  email : String
  full_name : String
  role : UserRole
  team_id : String
  default_commission_rate : ℚ
deriving DecidableEq, Repr

/-- The `CommissionEntry` interface from types.ts.  Optional string fields use
`""` for `undefined` (see file header). -/
structure CommissionEntry where
  id : String
  user_id : String
  invoice_number : String
  receipt_number : String
  customer : String
  project : String
  amount_before_vat : ℚ
  cost_before_vat : ℚ
  commission_rate : ℚ
  tax : ℚ
  net_total : ℚ
  net_to_pay : ℚ
  invoice_month : String
  client_paid_date : String
  commission_status : CommissionStatus
  company_paid_date : String
  note : String
  file_name : String
deriving DecidableEq, Repr

/-- The derived-field invariant of the spec: `net_total` and `net_to_pay`
agree with the current amount, cost and rate. -/
def derivedOk (e : CommissionEntry) : Prop :=
  e.net_total = e.amount_before_vat - e.cost_before_vat ∧
  e.net_to_pay = e.net_total * (e.commission_rate / 100)

instance (e : CommissionEntry) : Decidable (derivedOk e) := by
  unfold derivedOk; infer_instance

/-- App.tsx `handleUpdateCommission`, lines 237-252: the "backend calculation
simulation" that recomputes `net_total`/`net_to_pay` from the incoming
entry's amount, cost and rate before storing it.  This is the recompute
step (`let entry = {...updatedEntry}; entry.net_total = ...`). -/
def recomputeEntry (updatedEntry : CommissionEntry) : CommissionEntry :=
  { updatedEntry with
    net_total := updatedEntry.amount_before_vat - updatedEntry.cost_before_vat,
    net_to_pay := (updatedEntry.amount_before_vat - updatedEntry.cost_before_vat) *
      (updatedEntry.commission_rate / 100) }

/-- App.tsx `handleUpdateCommission`: recompute derived fields, then replace
the entry with the matching id (`prev.map (c => c.id === entry.id ? entry : c)`). -/
def handleUpdateCommission (commissions : List CommissionEntry)
    (updatedEntry : CommissionEntry) : List CommissionEntry :=
  let entry := recomputeEntry updatedEntry
  commissions.map (fun c => if c.id = entry.id then entry else c)

/-- App.tsx `handleAddCommission`: `setCommissions (prev => [entry, ...prev])`. -/
def handleAddCommission (commissions : List CommissionEntry)
    (entry : CommissionEntry) : List CommissionEntry :=
  entry :: commissions

/-- App.tsx `handleSaveCommission` (invoice-review save): `[entry, ...commissions]`. -/
def handleSaveCommission (commissions : List CommissionEntry)
    (entry : CommissionEntry) : List CommissionEntry :=
  entry :: commissions

/-- The `newEntry : Partial<CommissionEntry>` form state of the add-commission
modal in CommissionList.tsx.  Absent optional strings are `""`; the numeric
fields are the already-`Number()`-coerced values, with `0` standing for the
absent/falsy case exactly as the submit handler's truthiness tests see it. -/
structure NewEntryForm where
  invoice_number : String
  receipt_number : String
  customer : String
  project : String
  amount_before_vat : ℚ
  cost_before_vat : ℚ
  commission_rate : ℚ
  tax : ℚ
  invoice_month : String
  note : String
  file_name : String
deriving DecidableEq, Repr

/-- CommissionList.tsx `handleAddSubmit`, lines 183-226.  Returns the entry
handed to `onAdd`, or `none` when the submit bails out (missing required
fields, or duplicate invoice number and the user declines the confirm).
`newId` stands for `crypto.randomUUID()`; `confirmDuplicate` is the user's
answer to `window.confirm`. -/
def handleAddSubmit (user : Profile) (newId : String)
    (activeEntries : List CommissionEntry) (form : NewEntryForm)
    (confirmDuplicate : Bool) : Option CommissionEntry :=
  if form.invoice_number = "" ∨ form.amount_before_vat = 0 ∨ form.invoice_month = "" then
    none
  else if (activeEntries.any fun e =>
      jsToLower e.invoice_number = jsToLower form.invoice_number) ∧ ¬confirmDuplicate then
    none
  else
    let amount := form.amount_before_vat
    let cost := form.cost_before_vat
    let rate := if form.commission_rate = 0 then user.default_commission_rate
                else form.commission_rate
    let netTotal := amount - cost
    let netToPay := netTotal * (rate / 100)
    some
      { id := newId
        user_id := user.id
        invoice_number := form.invoice_number
        receipt_number := form.receipt_number
        customer := if form.customer = "" then "Unknown" else form.customer
        project := form.project
        amount_before_vat := amount
        cost_before_vat := cost
        commission_rate := rate
        tax := form.tax
        net_total := netTotal
        net_to_pay := netToPay
        invoice_month := form.invoice_month
        client_paid_date := ""
        commission_status := CommissionStatus.unpaid
        company_paid_date := ""
        note := form.note
        file_name := form.file_name }

/-- Composition of `handleAddSubmit` with the `onAdd` callback wired in
App.tsx (`handleAddCommission`): the commission collection after a manual
add-form submit. -/
def addViaForm (user : Profile) (newId : String)
    (activeEntries commissions : List CommissionEntry) (form : NewEntryForm)
    (confirmDuplicate : Bool) : List CommissionEntry :=
  match handleAddSubmit user newId activeEntries form confirmDuplicate with
  | none => commissions
  | some entry => handleAddCommission commissions entry

/-- One inline table edit in CommissionList.tsx: the `field : keyof
CommissionEntry` together with the new value.  The source receives the new
value from the DOM as a string and coerces the numeric fields with
`Number(value)` (lines 144-148); the constructors of the numeric fields
carry that already-coerced number. -/
inductive FieldEdit where
  | invoice_month (v : String)
  | invoice_number (v : String)
  | customer (v : String)
  | project (v : String)
  | amount_before_vat (v : ℚ)
  | cost_before_vat (v : ℚ)
  | commission_rate (v : ℚ)
  | tax (v : ℚ)
  | client_paid_date (v : String)
  | receipt_number (v : String)
  | commission_status (v : CommissionStatus)
  | company_paid_date (v : String)
deriving DecidableEq, Repr

/-- The `${id}-${field}` key suffix used by `setInvalidFields`. -/
def fieldName : FieldEdit → String
  | .invoice_month _ => "invoice_month"
  | .invoice_number _ => "invoice_number"
  | .customer _ => "customer"
  | .project _ => "project"
  | .amount_before_vat _ => "amount_before_vat"
  | .cost_before_vat _ => "cost_before_vat"
  | .commission_rate _ => "commission_rate"
  | .tax _ => "tax"
  | .client_paid_date _ => "client_paid_date"
  | .receipt_number _ => "receipt_number"
  | .commission_status _ => "commission_status"
  | .company_paid_date _ => "company_paid_date"

/-- The spread `{ ...entry, [field]: updatedValue }`. -/
def applyEdit (e : CommissionEntry) : FieldEdit → CommissionEntry
  | .invoice_month v => { e with invoice_month := v }
  | .invoice_number v => { e with invoice_number := v }
  | .customer v => { e with customer := v }
  | .project v => { e with project := v }
  | .amount_before_vat v => { e with amount_before_vat := v }
  | .cost_before_vat v => { e with cost_before_vat := v }
  | .commission_rate v => { e with commission_rate := v }
  | .tax v => { e with tax := v }
  | .client_paid_date v => { e with client_paid_date := v }
  | .receipt_number v => { e with receipt_number := v }
  | .commission_status v => { e with commission_status := v }
  | .company_paid_date v => { e with company_paid_date := v }

/-- CommissionList.tsx `validateField`, lines 123-129.  For the
`invoice_number` case, `!value || value.trim() === ''` collapses to the
empty / all-whitespace tests on the `""`-for-`undefined` encoding. -/
def validateField : FieldEdit → Bool
  | .amount_before_vat v => if v < 0 then false else true
  | .cost_before_vat v => if v < 0 then false else true
  | .commission_rate v => if v < 0 ∨ v > 100 then false else true
  | .invoice_number v => if v = "" ∨ v.trim = "" then false else true
  | _ => true

/-- The map held in the `invalidFields` state after
`setInvalidFields(prev => ({...prev, [`id-field`]: !isValid}))`. -/
def invalidFieldsAfter (prev : String → Bool) (id : String) (edit : FieldEdit) :
    String → Bool :=
  fun k => if k = id ++ "-" ++ fieldName edit then !validateField edit else prev k

/-- CommissionList.tsx `handleInlineUpdate`, lines 131-169.  Returns the
entry handed to `onUpdate`, or `none` when no update is issued (read-only
view, or unknown id).  `promptResult` is the `window.prompt` answer for the
company-paid-date dialog (`none` = cancel); the source's `if (date)` treats
cancel and the empty string alike, and when the prompt is declined control
falls through to the plain `onUpdate(updatedEntry)` at the end of the
handler. -/
def handleInlineUpdate (isViewReadOnly : Bool) (promptResult : Option String)
    (activeEntries : List CommissionEntry) (id : String) (edit : FieldEdit) :
    Option CommissionEntry :=
  if isViewReadOnly then none
  else
    match activeEntries.find? (fun e => e.id = id) with
    | none => none
    | some entry =>
      let updatedEntry := applyEdit entry edit
      match edit with
      | .commission_status v =>
        -- 1. Status special logic (Paid -> ask for date)
        if v = CommissionStatus.paid ∧ entry.company_paid_date = "" then
          match promptResult with
          | some date =>
            if date ≠ "" then some { updatedEntry with company_paid_date := date }
            else some updatedEntry
          | none => some updatedEntry
        else some updatedEntry
      | .client_paid_date v =>
        -- 2. Date special logic (Date entered -> set Eligible if currently Unpaid)
        if v ≠ "" ∧ entry.commission_status = CommissionStatus.unpaid then
          some { updatedEntry with commission_status := CommissionStatus.eligible }
        else some updatedEntry
      | _ => some updatedEntry

/-- Composition of `handleInlineUpdate` with the `onUpdate` callback wired in
App.tsx (`handleUpdateCommission`): the commission collection after one
inline table edit. -/
def inlineEditCommissions (isViewReadOnly : Bool) (promptResult : Option String)
    (activeEntries commissions : List CommissionEntry) (id : String)
    (edit : FieldEdit) : List CommissionEntry :=
  match handleInlineUpdate isViewReadOnly promptResult activeEntries id edit with
  | none => commissions
  | some e => handleUpdateCommission commissions e

/-- The `conversionInfo` object built by the InvoiceReview mapping effect. -/
structure ConversionInfo where
  originalCurrency : String
  originalAmount : ℚ
  rate : ℚ
deriving DecidableEq, Repr

/-- One editable draft line item in InvoiceReview.tsx.  `cost_before_vat`
starts out as the empty string `''` and becomes a number once edited;
`Option ℚ` models this (`none` = `''`). -/
structure ReviewItem where
  invoice_number : String
  receipt_number : String
  customer : String
  amount_before_vat : ℚ
  project : String
  invoice_month : String
  client_paid_date : String
  commission_rate : ℚ
  cost_before_vat : Option ℚ
  tax : ℚ
  conversionInfo : Option ConversionInfo
deriving DecidableEq, Repr

/-- One raw record returned by the AI extraction boundary (see the
`geminiService` response schema): optional fields use `""`/`none` for
absence.  `amount_before_vat` is `Option ℚ` because the mapping effect
distinguishes the absent case with a truthiness test. -/
structure RawExtractedItem where
  invoice_number : String
  receipt_number : String
  customer : String
  amount_before_vat : Option ℚ
  currency_code : String
  invoice_date : String
  project_description : String
deriving DecidableEq, Repr

/-- InvoiceReview.tsx `EXCHANGE_RATES`, lines 16-25. -/
def EXCHANGE_RATES : String → Option ℚ
  | "USD" => some 34.5
  | "EUR" => some 37.5
  | "GBP" => some 43.8
  | "JPY" => some 0.23
  | "AUD" => some 22.5
  | "SGD" => some 25.6
  | "CNY" => some 4.8
  | "THB" => some 1
  | _ => none

/-- Rounding for `Number(x.toFixed(2))`: round to 2 decimal places; ECMA's `toFixed`
picks the larger candidate on a tie, i.e. `⌊x*100 + 1/2⌋ / 100`. -/
def round2 (q : ℚ) : ℚ := (round (q * 100) : ℤ) / 100

/-- Normalisation `(item.currency_code || THB).toUpperCase()` of the extracted code. -/
def normCurrency (c : String) : String :=
  jsToUpper (if c = "" then "THB" else c)

/-- InvoiceReview.tsx mapping effect, lines 59-112: one raw extracted record
mapped into an editable draft item.  `parseMonthStart` models
`new Date(s)` + `toISOString().slice(0,8) + '01'` (returning `none` when the
date string does not parse); `todayMonthStart` and `todayIso` model the
`new Date()` defaults. -/
def mapRawItem (default_commission_rate : ℚ)
    (parseMonthStart : String → Option String) (todayMonthStart todayIso : String)
    (item : RawExtractedItem) : ReviewItem :=
  let dateStr :=
    if item.invoice_date ≠ "" then
      (parseMonthStart item.invoice_date).getD todayMonthStart
    else todayMonthStart
  let rawDate := if item.invoice_date ≠ "" then item.invoice_date else todayIso
  let amount0 : ℚ := item.amount_before_vat.getD 0
  let currencyCode := normCurrency item.currency_code
  -- Auto Convert if not THB
  let converted : ℚ × Option ConversionInfo :=
    if currencyCode ≠ "THB" ∧ amount0 > 0 then
      match EXCHANGE_RATES currencyCode with
      | some rate => (round2 (amount0 * rate),
          some { originalCurrency := currencyCode, originalAmount := amount0, rate := rate })
      | none => (amount0, none)
    else (amount0, none)
  { invoice_number := item.invoice_number
    receipt_number := item.receipt_number
    customer := item.customer
    amount_before_vat := converted.1
    project := item.project_description
    invoice_month := dateStr
    client_paid_date := if item.receipt_number ≠ "" then rawDate else ""
    commission_rate := default_commission_rate
    cost_before_vat := none
    tax := 0
    conversionInfo := converted.2 }

/-- InvoiceReview.tsx `finalizeSave`, lines 162-204 (entry construction only;
the saved-ids bookkeeping and toast are UI state).  `newId` stands for
`crypto.randomUUID()`, `fileName` for `file?.name`. -/
def finalizeSave (user : Profile) (newId fileName : String)
    (item : ReviewItem) : CommissionEntry :=
  let cost := item.cost_before_vat.getD 0
  let amount := item.amount_before_vat
  let rate := item.commission_rate
  let netTotal := amount - cost
  let netToPay := netTotal * (rate / 100)
  { id := newId
    user_id := user.id
    invoice_number := item.invoice_number
    receipt_number := item.receipt_number
    customer := item.customer
    project := item.project
    amount_before_vat := amount
    cost_before_vat := cost
    commission_rate := rate
    tax := item.tax
    net_total := netTotal
    net_to_pay := netToPay
    invoice_month := item.invoice_month
    client_paid_date := item.client_paid_date
    commission_status :=
      if item.client_paid_date ≠ "" then CommissionStatus.eligible
      else CommissionStatus.unpaid
    company_paid_date := ""
    note := ""
    file_name := fileName }

/-- InvoiceReview.tsx `proceedWithDuplicateCheck`, lines 139-160, composed
with the confirm answer of the duplicate modal (`confirmDuplicate`):
returns the entry handed to `onSave`, or `none` when the duplicate modal is
declined. -/
def proceedWithDuplicateCheck (user : Profile) (newId fileName : String)
    (existingCommissions : List CommissionEntry) (item : ReviewItem)
    (confirmDuplicate : Bool) : Option CommissionEntry :=
  let isDuplicate := existingCommissions.any fun c =>
    jsToLower c.invoice_number = jsToLower item.invoice_number ∧ c.user_id = user.id
  if isDuplicate ∧ ¬confirmDuplicate then none
  else some (finalizeSave user newId fileName item)

/-- Composition of `proceedWithDuplicateCheck` with the `onSave` callback
wired in App.tsx (`handleSaveCommission`): the commission collection after
one review-workflow save attempt. -/
def saveViaReview (user : Profile) (newId fileName : String)
    (existingCommissions : List CommissionEntry) (item : ReviewItem)
    (confirmDuplicate : Bool) : List CommissionEntry :=
  match proceedWithDuplicateCheck user newId fileName existingCommissions item
      confirmDuplicate with
  | none => existingCommissions
  | some entry => handleSaveCommission existingCommissions entry

/-- A JavaScript value as seen by the sort comparator: `undefined`, `null`,
or a defined value of type `V` (a number or string column of the entry). -/
inductive JSVal (V : Type) where
  | undef
  | null
  | val (v : V)
deriving DecidableEq, Repr

/-- JavaScript strict equality `===` on comparator operands: `undefined` and
`null` are each equal only to themselves. -/
def jsStrictEq {V : Type} [DecidableEq V] : JSVal V → JSVal V → Bool
  | .undef, .undef => true
  | .null, .null => true
  | .val a, .val b => a = b
  | _, _ => false

/-- Whether a value is `undefined` or `null` (the comparator's second and
third guards). -/
def isNullish {V : Type} : JSVal V → Bool
  | .undef => true
  | .null => true
  | .val _ => false

/-- JavaScript `<` restricted to the comparator's use: by the time it runs,
both operands are defined (non-nullish). -/
def jsLt {V : Type} [LT V] [DecidableRel (α := V) (· < ·)] :
    JSVal V → JSVal V → Bool
  | .val a, .val b => a < b
  | _, _ => false

/-- The two sort directions of `sortConfig`. -/
inductive SortDirection where
  | asc
  | desc
deriving DecidableEq, Repr

/-- CommissionList.tsx `filteredEntries` sort comparator, lines 87-98,
applied to the two projected key values `a[sortConfig.key]` and
`b[sortConfig.key]`. -/
def sortComparator {V : Type} [DecidableEq V] [LT V]
    [DecidableRel (α := V) (· < ·)] (direction : SortDirection)
    (aValue bValue : JSVal V) : Int :=
  if jsStrictEq aValue bValue then 0
  else if isNullish aValue then 1
  else if isNullish bValue then -1
  else
    let comparison : Int := if jsLt aValue bValue then -1 else 1
    match direction with
    | .asc => comparison
    | .desc => -comparison

/-- One spreadsheet cell of the export: the source's row objects hold either
a number or a string in each column. -/
inductive Cell where
  | num (q : ℚ)
  | str (s : String)
deriving DecidableEq, Repr

/-- One row of the exported data array (`handleExport`, lines 240-278).
`freelancer` is `some _` exactly when the conditional "Freelancer" column is
included (`allowUserFilter || viewMode === 'team'`). -/
structure ExportRow where
  freelancer : Option String
  invoiceNumber : Cell
  receiptNumber : Cell
  customer : Cell
  project : Cell
  amountBeforeVat : Cell
  costBeforeVat : Cell
  commissionRate : Cell
  netTotal : Cell
  netToPay : Cell
  tax : Cell
  invoiceMonth : Cell
  clientPaidDate : Cell
  status : Cell
  companyPaidDate : Cell
  note : Cell
deriving DecidableEq, Repr

/-- The string value of `e.commission_status` as serialized to the sheet. -/
def statusString : CommissionStatus → String
  | .unpaid => "unpaid"
  | .eligible => "eligible"
  | .paid => "paid"

/-- The `fmtDate` helper of `handleExport`: `d ? locale(d) : ''`, where
`locale` models `new Date(d).toLocaleDateString('en-GB')`. -/
def fmtDate (locale : String → String) (d : String) : String :=
  if d ≠ "" then locale d else ""

/-- The `fmtMonth` helper of `handleExport`: `d ? locale(d) : ''`, where
`locale` models the `en-US` short-month formatting. -/
def fmtMonth (locale : String → String) (d : String) : String :=
  if d ≠ "" then locale d else ""

/-- One data row per filtered entry (`handleExport`, lines 240-257).
`getUserName` models the `profiles` lookup; `dateLocale`/`monthLocale` are
the locale formatters fed to `fmtDate`/`fmtMonth`. -/
def entryRow (includeFreelancer : Bool) (getUserName : String → String)
    (dateLocale monthLocale : String → String) (e : CommissionEntry) : ExportRow :=
  { freelancer := if includeFreelancer then some (getUserName e.user_id) else none
    invoiceNumber := .str e.invoice_number
    receiptNumber := .str e.receipt_number
    customer := .str e.customer
    project := .str e.project
    amountBeforeVat := .num e.amount_before_vat
    costBeforeVat := .num e.cost_before_vat
    commissionRate := .num e.commission_rate
    netTotal := .num e.net_total
    netToPay := .num e.net_to_pay
    tax := .num e.tax
    invoiceMonth := .str (fmtMonth monthLocale e.invoice_month)
    clientPaidDate := .str (fmtDate dateLocale e.client_paid_date)
    status := .str (statusString e.commission_status)
    companyPaidDate := .str (fmtDate dateLocale e.company_paid_date)
    note := .str e.note }

/-- The synthetic totals row (`handleExport`, lines 260-277): each numeric
column is `filteredEntries.reduce((sum, e) => sum + e.field, 0)`, the other
columns are blank (invoice number carries the `"TOTALS"` label). -/
def totalsRow (includeFreelancer : Bool)
    (filteredEntries : List CommissionEntry) : ExportRow :=
  { freelancer := if includeFreelancer then some "" else none
    invoiceNumber := .str "TOTALS"
    receiptNumber := .str ""
    customer := .str ""
    project := .str ""
    amountBeforeVat := .num (filteredEntries.foldl (fun sum e => sum + e.amount_before_vat) 0)
    costBeforeVat := .num (filteredEntries.foldl (fun sum e => sum + e.cost_before_vat) 0)
    commissionRate := .str ""
    netTotal := .num (filteredEntries.foldl (fun sum e => sum + e.net_total) 0)
    netToPay := .num (filteredEntries.foldl (fun sum e => sum + e.net_to_pay) 0)
    tax := .num (filteredEntries.foldl (fun sum e => sum + e.tax) 0)
    invoiceMonth := .str ""
    clientPaidDate := .str ""
    status := .str ""
    companyPaidDate := .str ""
    note := .str "" }

/-- CommissionList.tsx `handleExport`, lines 228-294, up to the data array
handed to the spreadsheet library: `none` when the guard refuses (empty view
or more than 5000 rows, lines 229-233) and no file is produced, otherwise
the ordered list of rows written to the file. -/
def handleExport (includeFreelancer : Bool) (getUserName : String → String)
    (dateLocale monthLocale : String → String)
    (filteredEntries : List CommissionEntry) : Option (List ExportRow) :=
  if filteredEntries.length = 0 then none
  else if filteredEntries.length > 5000 then none
  else
    some (filteredEntries.map
        (entryRow includeFreelancer getUserName dateLocale monthLocale)
      ++ [totalsRow includeFreelancer filteredEntries])

/-- A browser `File` as far as the upload queue consults it: its name and
its MIME type (`file.type`; named `ftype` here). -/
structure JSFile where
  name : String
  ftype : String
deriving DecidableEq, Repr

/-- The `UploadItem` status union from types.ts. -/
inductive UploadStatus where
  | uploading
  | parsing
  | ready
  | error
deriving DecidableEq, Repr

/-- The `UploadItem` interface from types.ts (the transient extracted data
and error message are not consulted by `processFiles`). -/
structure UploadItem where
  id : String
  file : JSFile
  status : UploadStatus
  progress : Nat
deriving DecidableEq, Repr

/-- JavaScript `Array.prototype.slice(0, e)`: a non-negative end index takes
the first `e` elements; a negative end index counts from the end of the
array (`max(length + e, 0)` elements). -/
def jsSliceTo {α : Type} (l : List α) (e : Int) : List α :=
  if 0 ≤ e then l.take e.toNat else l.take (l.length - (-e).toNat)

/-- The `.map(file => ({id: crypto.randomUUID(), file, status: 'uploading',
progress: 0}))` step, with `uuids i` standing for the `i`-th fresh
`crypto.randomUUID()`. -/
def mkUploadItems (uuids : Nat → String) : Nat → List JSFile → List UploadItem
  | _, [] => []
  | i, f :: fs =>
    { id := uuids i, file := f, status := .uploading, progress := 0 } ::
      mkUploadItems uuids (i + 1) fs

/-- InvoiceUpload.tsx `processFiles`, lines 26-48: slice the incoming file
list to the remaining queue capacity, keep only PDFs, wrap them as queue
items; if nothing survives, the queue is left unchanged (early return),
otherwise the new items are appended. -/
def processFiles (uuids : Nat → String) (queue : List UploadItem)
    (files : List JSFile) : List UploadItem :=
  let newItems := mkUploadItems uuids 0
    ((jsSliceTo files (5 - (queue.length : Int))).filter
      (fun file => file.ftype == "application/pdf"))
  if newItems = [] then queue
  else queue ++ newItems

/-! Concrete fixtures used to instantiate the theorems below. -/

/-- A freelancer profile in the shape of the seeded demo data. -/
def sampleUser : Profile :=
  { id := "user-1", email := "freelancer@base44.com", full_name := "Alex Freelancer",
    role := .user, team_id := "team-1", default_commission_rate := 5 }

/-- An unpaid entry with no company-paid date whose derived fields are
consistent (`80 = 100 - 20`, `4 = 80 * 5 / 100`). -/
def sampleEntry : CommissionEntry :=
  { id := "e1", user_id := "user-1", invoice_number := "INV-001",
    receipt_number := "", customer := "Acme", project := "Site",
    amount_before_vat := 100, cost_before_vat := 20, commission_rate := 5,
    tax := 0, net_total := 80, net_to_pay := 4, invoice_month := "2023-10-01",
    client_paid_date := "", commission_status := .unpaid,
    company_paid_date := "", note := "", file_name := "" }

/-- An update request whose derived fields are stale/inconsistent: the
recompute step must overwrite them. -/
def sampleBadUpdate : CommissionEntry :=
  { sampleEntry with amount_before_vat := 50, net_total := 999, net_to_pay := -3 }

/-- A filled-in add-commission form. -/
def sampleForm : NewEntryForm :=
  { invoice_number := "INV-001", receipt_number := "", customer := "Acme",
    project := "", amount_before_vat := 100, cost_before_vat := 20,
    commission_rate := 5, tax := 0, invoice_month := "2023-10-01",
    note := "", file_name := "" }

/-- A review draft item with its cost filled in. -/
def sampleItem : ReviewItem :=
  { invoice_number := "INV-001", receipt_number := "", customer := "Acme",
    amount_before_vat := 100, project := "", invoice_month := "2023-10-01",
    client_paid_date := "", commission_rate := 5, cost_before_vat := some 20,
    tax := 0, conversionInfo := none }

/-- C1: after any create operation (manual add form, invoice-review save) or
any update operation (inline edit funnels into `handleUpdateCommission`),
every entry in the collection satisfies
`net_total = amount_before_vat - cost_before_vat` and
`net_to_pay = net_total * commission_rate / 100`; the derived fields of the
touched entry are recomputed from its current amount, cost and rate and are
never taken from the caller (the update conjunct holds for an arbitrary
incoming `u`, whatever derived fields it carries). -/
theorem derived_fields_recomputed_on_every_mutation
    (user : Profile) (newId fileName : String)
    (activeEntries commissions : List CommissionEntry)
    (form : NewEntryForm) (confirmDuplicate : Bool) (item : ReviewItem)
    (u : CommissionEntry)
    (hprev : ∀ e ∈ commissions, derivedOk e) :
    (∀ entry, handleAddSubmit user newId activeEntries form confirmDuplicate = some entry →
      ∀ e ∈ handleAddCommission commissions entry, derivedOk e)
    ∧ (∀ e ∈ handleSaveCommission commissions (finalizeSave user newId fileName item),
        derivedOk e)
    ∧ (∀ e ∈ handleUpdateCommission commissions u, derivedOk e) := by
  refine ⟨?_, ?_, ?_⟩
  · intro entry hsome e he
    rcases List.mem_cons.mp he with rfl | hmem
    · unfold handleAddSubmit at hsome
      split at hsome
      · exact absurd hsome (by simp)
      · split at hsome
        · exact absurd hsome (by simp)
        · injection hsome with h
          subst h
          exact ⟨rfl, rfl⟩
    · exact hprev e hmem
  · intro e he
    rcases List.mem_cons.mp he with rfl | hmem
    · exact ⟨rfl, rfl⟩
    · exact hprev e hmem
  · intro e he
    unfold handleUpdateCommission at he
    obtain ⟨c, hc, hce⟩ := List.mem_map.mp he
    by_cases h : c.id = (recomputeEntry u).id
    · rw [if_pos h] at hce
      exact hce ▸ ⟨rfl, rfl⟩
    · rw [if_neg h] at hce
      exact hce ▸ hprev c hc

/-- Witness for C1: the entry produced by a review save satisfies the
derived-field invariant. -/
theorem derived_fields_recomputed_on_every_mutation_witness :
    derivedOk (finalizeSave sampleUser "n1" "f.pdf" sampleItem) :=
  (derived_fields_recomputed_on_every_mutation sampleUser "n1" "f.pdf" [] []
      sampleForm true sampleItem sampleBadUpdate (by simp)).2.1
    (finalizeSave sampleUser "n1" "f.pdf" sampleItem)
    (List.mem_cons_self _ _)

/-- C2 counterexample: directly editing `sampleEntry`'s status to `paid`
with no company-paid date and declining the prompt does NOT leave the entry
unchanged — the source's `if (date)` has no early return on the declined
branch, so control falls through to `onUpdate(updatedEntry)` and the status
change commits. -/
theorem paid_prompt_declined_changes_entry :
    inlineEditCommissions false none [sampleEntry] [sampleEntry] "e1"
      (.commission_status .paid) ≠ [sampleEntry] := by
  intro h
  have h2 := congrArg (fun l => l.map CommissionEntry.commission_status) h
  simp [inlineEditCommissions, handleInlineUpdate, handleUpdateCommission,
    recomputeEntry, applyEdit, sampleEntry] at h2

/-- C2 amended: editing status to `paid` while `company_paid_date` is unset
prompts for the date; if a date is supplied it is recorded together with the
status change, and if the prompt is declined (cancel or empty answer) the
status change is applied anyway, leaving `company_paid_date` unset — the
entry is not left unchanged. -/
theorem paid_prompt_declined_amended
    (promptResult : Option String) (activeEntries : List CommissionEntry)
    (id : String) (entry : CommissionEntry)
    (hfind : activeEntries.find? (fun e => e.id = id) = some entry)
    (hnodate : entry.company_paid_date = "")
    (hdeclined : promptResult = none ∨ promptResult = some "") :
    handleInlineUpdate false promptResult activeEntries id (.commission_status .paid)
      = some (applyEdit entry (.commission_status .paid))
    ∧ (applyEdit entry (.commission_status .paid)).commission_status = .paid
    ∧ (applyEdit entry (.commission_status .paid)).company_paid_date = ""
    ∧ (∀ date : String, date ≠ "" →
        handleInlineUpdate false (some date) activeEntries id (.commission_status .paid)
          = some { applyEdit entry (.commission_status .paid) with
              company_paid_date := date }) := by
  refine ⟨?_, rfl, hnodate, ?_⟩
  · unfold handleInlineUpdate
    rw [if_neg (by simp), hfind]
    rcases hdeclined with rfl | rfl
    · simp [hnodate]
    · simp [hnodate]
  · intro date hdate
    unfold handleInlineUpdate
    rw [if_neg (by simp), hfind]
    simp [hnodate, hdate]

/-- Witness for C2's amended theorem: the declined prompt on `sampleEntry`. -/
theorem paid_prompt_declined_amended_witness :
    handleInlineUpdate false none [sampleEntry] "e1" (.commission_status .paid)
      = some (applyEdit sampleEntry (.commission_status .paid)) :=
  (paid_prompt_declined_amended none [sampleEntry] "e1" sampleEntry
    (by decide) (by decide) (Or.inl rfl)).1

/-- C3: directly editing `client_paid_date` to a non-empty value transitions
an `unpaid` entry to `eligible` and leaves an `eligible` or `paid` entry's
status unchanged; the downstream recompute step never changes the status. -/
theorem client_paid_date_autotransition
    (promptResult : Option String) (activeEntries : List CommissionEntry)
    (id v : String) (entry : CommissionEntry)
    (hfind : activeEntries.find? (fun e => e.id = id) = some entry)
    (hv : v ≠ "") :
    handleInlineUpdate false promptResult activeEntries id (.client_paid_date v)
      = some { applyEdit entry (.client_paid_date v) with
          commission_status :=
            if entry.commission_status = .unpaid then .eligible
            else entry.commission_status }
    ∧ (∀ u : CommissionEntry,
        (recomputeEntry u).commission_status = u.commission_status) := by
  refine ⟨?_, fun u => rfl⟩
  unfold handleInlineUpdate
  rw [if_neg (by simp), hfind]
  by_cases hs : entry.commission_status = .unpaid
  · simp [hv, hs]
  · simp only [hv, hs, if_neg, and_false, if_false]
    simp [applyEdit, hs]

/-- Witness for C3: editing the date on the unpaid `sampleEntry`. -/
theorem client_paid_date_autotransition_witness :
    handleInlineUpdate false none [sampleEntry] "e1"
        (.client_paid_date "2023-10-15")
      = some { applyEdit sampleEntry (.client_paid_date "2023-10-15") with
          commission_status :=
            if sampleEntry.commission_status = .unpaid then .eligible
            else sampleEntry.commission_status } :=
  (client_paid_date_autotransition none [sampleEntry] "e1" "2023-10-15"
    sampleEntry (by decide) (by decide)).1

/-- C4: the single-column sort comparator returns 0 on (strictly) equal key
values; a `null`/`undefined` key value sorts after a defined one regardless
of the direction; and switching the direction inverts only the relative
order of pairs whose key values are both defined (for any pair with a
nullish side the comparator's answer is direction-independent). -/
theorem sort_comparator_spec {V : Type} [DecidableEq V] [LT V]
    [DecidableRel (α := V) (· < ·)] (direction : SortDirection) (a b : JSVal V) :
    (jsStrictEq a b = true → sortComparator direction a b = 0)
    ∧ (isNullish a = true → isNullish b = false → sortComparator direction a b = 1)
    ∧ (isNullish a = false → isNullish b = true → sortComparator direction a b = -1)
    ∧ (∀ x y : V, sortComparator .desc (.val x) (.val y)
        = -(sortComparator .asc (.val x) (.val y)))
    ∧ ((isNullish a = true ∨ isNullish b = true) →
        sortComparator .desc a b = sortComparator .asc a b) := by
  refine ⟨?_, ?_, ?_, ?_, ?_⟩
  · intro h
    simp [sortComparator, h]
  · intro ha hb
    cases a <;> cases b <;> simp_all [sortComparator, jsStrictEq, isNullish]
  · intro ha hb
    cases a <;> cases b <;> simp_all [sortComparator, jsStrictEq, isNullish]
  · intro x y
    simp only [sortComparator, jsStrictEq, isNullish, decide_eq_true_eq]
    by_cases h : x = y
    · simp [h]
    · simp [h]
  · intro h
    rcases h with h | h <;> cases a <;> cases b <;>
      simp_all [sortComparator, jsStrictEq, isNullish]

/-- Witness for C4: a `null` key value sorts after a defined integer key
even in descending order. -/
theorem sort_comparator_spec_witness :
    isNullish (JSVal.null : JSVal Int) = true
    ∧ isNullish (JSVal.val (3 : Int)) = false
    ∧ sortComparator .desc (JSVal.null : JSVal Int) (.val 3) = 1 :=
  ⟨rfl, rfl,
    (sort_comparator_spec .desc (JSVal.null : JSVal Int) (.val 3)).2.1 rfl rfl⟩

/-- C5: the export is a no-op (`none`: no file produced, and the embedded
handler touches no other state) exactly when the filtered view is empty or
holds more than 5000 rows; every non-empty view of at most 5000 rows
produces a file. -/
theorem export_guard (includeFreelancer : Bool)
    (getUserName dateLocale monthLocale : String → String)
    (filteredEntries : List CommissionEntry) :
    handleExport includeFreelancer getUserName dateLocale monthLocale filteredEntries
        = none
      ↔ (filteredEntries.length = 0 ∨ filteredEntries.length > 5000) := by
  unfold handleExport
  split_ifs with h1 h2 <;> simp_all

/-- Sum helper: the source's `reduce((sum, e) => sum + f e, 0)` equals the
sum of the mapped column. -/
theorem foldl_add_eq_sum (f : CommissionEntry → ℚ) (l : List CommissionEntry) :
    l.foldl (fun sum e => sum + f e) 0 = (l.map f).sum := by
  have key : ∀ (l : List CommissionEntry) (a : ℚ),
      l.foldl (fun sum e => sum + f e) a = a + (l.map f).sum := by
    intro l
    induction l with
    | nil => intro a; simp
    | cons x xs ih => intro a; simp [ih, add_assoc]
  simpa using key l 0

/-- C6: every exported view consists of one row per filtered entry followed
by exactly one synthetic totals row; the totals row's Amount Before VAT,
Cost Before VAT, Net Total, Net to Pay and Tax cells are the column sums
over all filtered entries, and its customer, project, date/month, status,
rate and note cells are blank. -/
theorem export_rows_and_totals (includeFreelancer : Bool)
    (getUserName dateLocale monthLocale : String → String)
    (filteredEntries : List CommissionEntry)
    (hne : 0 < filteredEntries.length) (hle : filteredEntries.length ≤ 5000) :
    handleExport includeFreelancer getUserName dateLocale monthLocale filteredEntries
      = some (filteredEntries.map
            (entryRow includeFreelancer getUserName dateLocale monthLocale)
          ++ [totalsRow includeFreelancer filteredEntries])
    ∧ (totalsRow includeFreelancer filteredEntries).amountBeforeVat
        = .num ((filteredEntries.map (fun e => e.amount_before_vat)).sum)
    ∧ (totalsRow includeFreelancer filteredEntries).costBeforeVat
        = .num ((filteredEntries.map (fun e => e.cost_before_vat)).sum)
    ∧ (totalsRow includeFreelancer filteredEntries).netTotal
        = .num ((filteredEntries.map (fun e => e.net_total)).sum)
    ∧ (totalsRow includeFreelancer filteredEntries).netToPay
        = .num ((filteredEntries.map (fun e => e.net_to_pay)).sum)
    ∧ (totalsRow includeFreelancer filteredEntries).tax
        = .num ((filteredEntries.map (fun e => e.tax)).sum)
    ∧ (totalsRow includeFreelancer filteredEntries).customer = .str ""
    ∧ (totalsRow includeFreelancer filteredEntries).project = .str ""
    ∧ (totalsRow includeFreelancer filteredEntries).invoiceMonth = .str ""
    ∧ (totalsRow includeFreelancer filteredEntries).clientPaidDate = .str ""
    ∧ (totalsRow includeFreelancer filteredEntries).companyPaidDate = .str ""
    ∧ (totalsRow includeFreelancer filteredEntries).status = .str ""
    ∧ (totalsRow includeFreelancer filteredEntries).commissionRate = .str ""
    ∧ (totalsRow includeFreelancer filteredEntries).note = .str "" := by
  refine ⟨?_, ?_, ?_, ?_, ?_, ?_, rfl, rfl, rfl, rfl, rfl, rfl, rfl, rfl⟩
  · unfold handleExport
    rw [if_neg (by omega), if_neg (by omega)]
  all_goals simp [totalsRow, foldl_add_eq_sum]

/-- Witness for C6: the one-entry view exports its row plus the totals row. -/
theorem export_rows_and_totals_witness :
    handleExport false (fun s => s) (fun s => s) (fun s => s) [sampleEntry]
      = some ([sampleEntry].map
            (entryRow false (fun s => s) (fun s => s) (fun s => s))
          ++ [totalsRow false [sampleEntry]]) :=
  (export_rows_and_totals false (fun s => s) (fun s => s) (fun s => s)
    [sampleEntry] (by simp) (by simp)).1

/-- A raw extracted record with a negative amount and a recognized non-local
currency code: the mapping effect's `amount > 0` guard skips the
conversion. -/
def sampleRawNegative : RawExtractedItem :=
  { invoice_number := "INV-9", receipt_number := "", customer := "",
    amount_before_vat := some (-100), currency_code := "USD",
    invoice_date := "", project_description := "" }

/-- A raw extracted record carrying the spec's concrete conversion example:
amount 100 in USD. -/
def sampleRawUsd : RawExtractedItem :=
  { invoice_number := "INV-1", receipt_number := "", customer := "",
    amount_before_vat := some 100, currency_code := "USD",
    invoice_date := "", project_description := "" }

/-- C7 counterexample: `currency_code = "USD"` is present, recognized (rate
34.5) and not THB, yet for the extracted amount `-100` the draft keeps the
amount unconverted (`-100`, not `round(-100 * 34.5, 2) = -3450`) and records
no conversion metadata — the source converts only when `amount > 0`. -/
theorem currency_conversion_counterexample :
    EXCHANGE_RATES (normCurrency "USD") = some 34.5
    ∧ normCurrency "USD" ≠ "THB"
    ∧ (mapRawItem 5 (fun _ => none) "2026-10-01" "2026-10-11"
        sampleRawNegative).conversionInfo = none
    ∧ (mapRawItem 5 (fun _ => none) "2026-10-01" "2026-10-11"
        sampleRawNegative).amount_before_vat = -100
    ∧ round2 ((-100 : ℚ) * 34.5) = -3450
    ∧ (mapRawItem 5 (fun _ => none) "2026-10-01" "2026-10-11"
        sampleRawNegative).amount_before_vat ≠ round2 ((-100 : ℚ) * 34.5) := by
  have hpos : ¬((-100 : ℚ) > 0) := by decide
  have hround : round2 ((-100 : ℚ) * 34.5) = -3450 := by
    unfold round2
    have h : (((-100 : ℚ) * 34.5) * 100) = ((-345000 : ℤ) : ℚ) := by norm_num
    rw [h, round_intCast]
    norm_num
  have hconv : (mapRawItem 5 (fun _ => none) "2026-10-01" "2026-10-11"
      sampleRawNegative).conversionInfo = none := by
    simp [mapRawItem, sampleRawNegative, hpos]
  have hamt : (mapRawItem 5 (fun _ => none) "2026-10-01" "2026-10-11"
      sampleRawNegative).amount_before_vat = -100 := by
    simp [mapRawItem, sampleRawNegative, hpos]
  exact ⟨rfl, by decide, hconv, hamt, hround, by rw [hamt, hround]; norm_num⟩

/-- C7 amended: when `currency_code` is absent the amount is kept (the
absent amount itself defaults to 0) with no conversion metadata; when the
code is present, recognized, not THB, AND the amount is positive, the draft
amount is `round(original * rate, 2)` with the conversion metadata retained;
an unrecognized code leaves the amount unconverted with no metadata; and a
non-positive (or missing) amount is likewise left unconverted with no
metadata even for a recognized foreign currency.  The concrete instance
100 USD at rate 34.5 ↦ 3450.00 with metadata holds. -/
theorem currency_conversion_amended (default_rate : ℚ)
    (parseMonthStart : String → Option String) (todayMonthStart todayIso : String)
    (item : RawExtractedItem) :
    (item.currency_code = "" →
      (mapRawItem default_rate parseMonthStart todayMonthStart todayIso
          item).amount_before_vat = item.amount_before_vat.getD 0
      ∧ (mapRawItem default_rate parseMonthStart todayMonthStart todayIso
          item).conversionInfo = none)
    ∧ (∀ a rate : ℚ, item.amount_before_vat = some a → 0 < a →
        normCurrency item.currency_code ≠ "THB" →
        EXCHANGE_RATES (normCurrency item.currency_code) = some rate →
        (mapRawItem default_rate parseMonthStart todayMonthStart todayIso
            item).amount_before_vat = round2 (a * rate)
        ∧ (mapRawItem default_rate parseMonthStart todayMonthStart todayIso
            item).conversionInfo
          = some { originalCurrency := normCurrency item.currency_code,
                   originalAmount := a, rate := rate })
    ∧ (EXCHANGE_RATES (normCurrency item.currency_code) = none →
        (mapRawItem default_rate parseMonthStart todayMonthStart todayIso
            item).amount_before_vat = item.amount_before_vat.getD 0
        ∧ (mapRawItem default_rate parseMonthStart todayMonthStart todayIso
            item).conversionInfo = none)
    ∧ (item.amount_before_vat.getD 0 ≤ 0 →
        (mapRawItem default_rate parseMonthStart todayMonthStart todayIso
            item).amount_before_vat = item.amount_before_vat.getD 0
        ∧ (mapRawItem default_rate parseMonthStart todayMonthStart todayIso
            item).conversionInfo = none)
    ∧ ((mapRawItem default_rate parseMonthStart todayMonthStart todayIso
          sampleRawUsd).amount_before_vat = 3450
      ∧ (mapRawItem default_rate parseMonthStart todayMonthStart todayIso
          sampleRawUsd).conversionInfo
        = some { originalCurrency := "USD", originalAmount := 100, rate := 34.5 }) := by
  refine ⟨?_, ?_, ?_, ?_, ?_⟩
  · intro h
    have h0 : normCurrency item.currency_code = "THB" := by
      rw [h]; decide
    constructor <;> simp [mapRawItem, h0]
  · intro a rate ha hpos hne hrate
    constructor <;>
      simp [mapRawItem, ha, hrate, if_pos, hne, hpos]
  · intro hrate
    by_cases hcond : normCurrency item.currency_code ≠ "THB"
        ∧ item.amount_before_vat.getD 0 > 0
    · constructor <;> simp [mapRawItem, hrate, hcond]
    · constructor <;> simp [mapRawItem, hcond]
  · intro hle
    have hcond : ¬(normCurrency item.currency_code ≠ "THB"
        ∧ item.amount_before_vat.getD 0 > 0) := by
      rintro ⟨-, hgt⟩
      exact absurd hle (by simpa using hgt)
    constructor <;> simp [mapRawItem, hcond]
  · have hcc : normCurrency "USD" = "USD" := by decide
    have hround : round2 ((100 : ℚ) * 34.5) = 3450 := by
      unfold round2
      have h : (((100 : ℚ) * 34.5) * 100) = ((345000 : ℤ) : ℚ) := by norm_num
      rw [h, round_intCast]
      norm_num
    have hpos : (0 : ℚ) < 100 := by decide
    have husd : EXCHANGE_RATES "USD" = some 34.5 := rfl
    constructor
    · simp [mapRawItem, sampleRawUsd, hcc, hpos, husd, hround]
    · simp [mapRawItem, sampleRawUsd, hcc, hpos, husd]

/-- Witness for C7's amended theorem: the 100-USD record converts to 3450
with metadata, via the positive-amount conversion clause. -/
theorem currency_conversion_amended_witness :
    (mapRawItem 5 (fun _ => none) "2026-10-01" "2026-10-11"
        sampleRawUsd).amount_before_vat = round2 ((100 : ℚ) * 34.5)
    ∧ (mapRawItem 5 (fun _ => none) "2026-10-01" "2026-10-11"
        sampleRawUsd).conversionInfo
      = some { originalCurrency := normCurrency sampleRawUsd.currency_code,
               originalAmount := 100, rate := 34.5 } :=
  (currency_conversion_amended 5 (fun _ => none) "2026-10-01" "2026-10-11"
    sampleRawUsd).2.1 100 34.5 rfl (by decide) (by decide) rfl

/-- C8: a case-insensitive duplicate invoice number is a soft confirmation
in both save paths — manual add form (duplicate check over the active
entries) and invoice review (duplicate check scoped to the acting user's
entries): declining leaves the collection unchanged, confirming adds a
second entry with the same invoice number; it is never a hard rejection. -/
theorem duplicate_invoice_confirmation (user : Profile) (newId fileName : String)
    (activeEntries commissions existing : List CommissionEntry)
    (form : NewEntryForm) (item : ReviewItem)
    (hinv : form.invoice_number ≠ "") (hamt : form.amount_before_vat ≠ 0)
    (hmonth : form.invoice_month ≠ "")
    (hdup : ∃ e ∈ activeEntries,
      jsToLower e.invoice_number = jsToLower form.invoice_number)
    (hdup2 : ∃ c ∈ existing,
      jsToLower c.invoice_number = jsToLower item.invoice_number ∧ c.user_id = user.id) :
    addViaForm user newId activeEntries commissions form false = commissions
    ∧ (∃ entry, handleAddSubmit user newId activeEntries form true = some entry
        ∧ entry.invoice_number = form.invoice_number
        ∧ addViaForm user newId activeEntries commissions form true
            = entry :: commissions)
    ∧ saveViaReview user newId fileName existing item false = existing
    ∧ (∃ entry, proceedWithDuplicateCheck user newId fileName existing item true
          = some entry
        ∧ entry.invoice_number = item.invoice_number
        ∧ saveViaReview user newId fileName existing item true = entry :: existing) := by
  have hreq : ¬(form.invoice_number = "" ∨ form.amount_before_vat = 0
      ∨ form.invoice_month = "") := by
    push_neg
    exact ⟨hinv, hamt, hmonth⟩
  have hany : (activeEntries.any fun e =>
      jsToLower e.invoice_number = jsToLower form.invoice_number) = true := by
    rw [List.any_eq_true]
    obtain ⟨e, he, heq⟩ := hdup
    exact ⟨e, he, by simpa using heq⟩
  have hany2 : (existing.any fun c =>
      jsToLower c.invoice_number = jsToLower item.invoice_number
        ∧ c.user_id = user.id) = true := by
    rw [List.any_eq_true]
    obtain ⟨c, hc, hceq⟩ := hdup2
    exact ⟨c, hc, by simpa using hceq⟩
  refine ⟨?_, ?_, ?_, ?_⟩
  · have h1 : handleAddSubmit user newId activeEntries form false = none := by
      unfold handleAddSubmit
      rw [if_neg hreq, if_pos ⟨hany, by simp⟩]
    unfold addViaForm
    rw [h1]
  · have h2 : ∃ entry, handleAddSubmit user newId activeEntries form true = some entry
        ∧ entry.invoice_number = form.invoice_number := by
      unfold handleAddSubmit
      rw [if_neg hreq, if_neg (by simp)]
      exact ⟨_, rfl, rfl⟩
    obtain ⟨entry, hsome, hinv2⟩ := h2
    refine ⟨entry, hsome, hinv2, ?_⟩
    unfold addViaForm
    rw [hsome]
    rfl
  · have h3 : proceedWithDuplicateCheck user newId fileName existing item false
        = none := by
      unfold proceedWithDuplicateCheck
      rw [if_pos ⟨hany2, by simp⟩]
    unfold saveViaReview
    rw [h3]
  · have h4 : proceedWithDuplicateCheck user newId fileName existing item true
        = some (finalizeSave user newId fileName item) := by
      unfold proceedWithDuplicateCheck
      rw [if_neg (by simp)]
    refine ⟨finalizeSave user newId fileName item, h4, rfl, ?_⟩
    unfold saveViaReview
    rw [h4]
    rfl

/-- Witness for C8: declining the duplicate confirmation in the manual add
form leaves the one-entry collection unchanged. -/
theorem duplicate_invoice_confirmation_witness :
    addViaForm sampleUser "n2" [sampleEntry] [sampleEntry] sampleForm false
      = [sampleEntry] :=
  (duplicate_invoice_confirmation sampleUser "n2" "f.pdf" [sampleEntry]
    [sampleEntry] [sampleEntry] sampleForm sampleItem (by decide) (by norm_num [sampleForm])
    (by decide) (by decide) (by decide)).1

/-- C9: on a non-read-only view, an inline edit that fails validation
(negative amount or cost, out-of-range rate, empty invoice number — exactly
the edits on which `validateField` answers `false`) is still applied: the
collection replaces the entry with the edited, derived-field-recomputed
version, and the failure is recorded only in the `invalidFields` visual
state. -/
theorem invalid_inline_edit_still_applied (promptResult : Option String)
    (prev : String → Bool) (activeEntries commissions : List CommissionEntry)
    (id : String) (edit : FieldEdit) (entry : CommissionEntry)
    (hfind : activeEntries.find? (fun e => e.id = id) = some entry)
    (hinvalid : validateField edit = false) :
    inlineEditCommissions false promptResult activeEntries commissions id edit
      = commissions.map (fun c =>
          if c.id = entry.id then recomputeEntry (applyEdit entry edit) else c)
    ∧ derivedOk (recomputeEntry (applyEdit entry edit))
    ∧ invalidFieldsAfter prev id edit (id ++ "-" ++ fieldName edit) = true := by
  have happly : handleInlineUpdate false promptResult activeEntries id edit
      = some (applyEdit entry edit) := by
    unfold handleInlineUpdate
    rw [if_neg (by simp), hfind]
    cases edit
    case commission_status v => exact absurd hinvalid (by simp [validateField])
    case client_paid_date v => exact absurd hinvalid (by simp [validateField])
    all_goals rfl
  have hid : (recomputeEntry (applyEdit entry edit)).id = entry.id := by
    cases edit <;> rfl
  refine ⟨?_, ⟨rfl, rfl⟩, ?_⟩
  · unfold inlineEditCommissions
    rw [happly]
    unfold handleUpdateCommission
    simp only [hid]
  · unfold invalidFieldsAfter
    rw [if_pos rfl, hinvalid]
    rfl

/-- Witness for C9: the invalid negative-amount edit on `sampleEntry` still
yields an entry with consistent derived fields. -/
theorem invalid_inline_edit_still_applied_witness :
    validateField (.amount_before_vat (-5)) = false
    ∧ derivedOk (recomputeEntry (applyEdit sampleEntry (.amount_before_vat (-5)))) :=
  ⟨by decide,
    (invalid_inline_edit_still_applied none (fun _ => false) [sampleEntry]
      [sampleEntry] "e1" (.amount_before_vat (-5)) sampleEntry
      (by decide) (by decide)).2.1⟩

/-- A PDF file for the upload-queue fixtures. -/
def pdfFile : JSFile := { name := "a.pdf", ftype := "application/pdf" }

/-- A non-PDF file for the upload-queue fixtures. -/
def txtFile : JSFile := { name := "b.txt", ftype := "text/plain" }

/-- A queued upload item wrapping `pdfFile`. -/
def sampleUploadItem : UploadItem :=
  { id := "u0", file := pdfFile, status := .uploading, progress := 0 }

/-- Length of the wrapped item list. -/
theorem mkUploadItems_length (uuids : Nat → String) (i : Nat) (l : List JSFile) :
    (mkUploadItems uuids i l).length = l.length := by
  induction l generalizing i with
  | nil => rfl
  | cons f fs ih => simp [mkUploadItems, ih]

/-- Every wrapped item's file comes from the wrapped list. -/
theorem mkUploadItems_file_mem (uuids : Nat → String) (i : Nat) (l : List JSFile)
    (it : UploadItem) (h : it ∈ mkUploadItems uuids i l) : it.file ∈ l := by
  induction l generalizing i with
  | nil => simp [mkUploadItems] at h
  | cons f fs ih =>
    rcases List.mem_cons.mp h with rfl | h2
    · exact List.mem_cons_self _ _
    · exact List.mem_cons.mpr (Or.inr (ih _ h2))

/-- C10 counterexample: with a (hypothetical) queue of 6 items,
`slice(0, 5 - 6)` is `slice(0, -1)`, which drops only the LAST incoming
file, so one item is still added — more than the claimed bound of
"at most 5 minus the current queue length" (which is ≤ 0 here). -/
theorem upload_queue_limit_counterexample :
    (processFiles (fun _ => "fresh") (List.replicate 6 sampleUploadItem)
        [pdfFile, pdfFile]).length = 7
    ∧ ¬((processFiles (fun _ => "fresh") (List.replicate 6 sampleUploadItem)
          [pdfFile, pdfFile]).length
            - (List.replicate 6 sampleUploadItem).length
        ≤ 5 - (List.replicate 6 sampleUploadItem).length) := by decide

/-- C10 amended: provided the current queue holds at most 5 items (which is
every reachable queue, since the queue starts empty and this is the only way
it grows), `processFiles` adds exactly the PDFs among the first
`5 - queue.length` files (truncation before the PDF filter), so at most
`5 - queue.length` items are added and the queue never exceeds 5; every
item of the resulting queue is either an old item or wraps a PDF file; and
when nothing survives the slice-then-filter, the queue is unchanged. -/
theorem upload_queue_bounded (uuids : Nat → String) (queue : List UploadItem)
    (files : List JSFile) (hq : queue.length ≤ 5) :
    (processFiles uuids queue files).length
      = queue.length + ((files.take (5 - queue.length)).filter
          (fun file => file.ftype == "application/pdf")).length
    ∧ (processFiles uuids queue files).length ≤ 5
    ∧ (∀ it ∈ processFiles uuids queue files,
        it ∈ queue ∨ it.file.ftype = "application/pdf")
    ∧ (((files.take (5 - queue.length)).filter
          (fun file => file.ftype == "application/pdf")) = [] →
        processFiles uuids queue files = queue) := by
  have hslice : jsSliceTo files (5 - (queue.length : Int))
      = files.take (5 - queue.length) := by
    unfold jsSliceTo
    rw [if_pos (by omega)]
    congr 1
    omega
  rcases eq_or_ne ((files.take (5 - queue.length)).filter
      (fun file => file.ftype == "application/pdf")) [] with hnil | hnil
  · have hproc : processFiles uuids queue files = queue := by
      unfold processFiles
      rw [hslice, hnil]
      simp [mkUploadItems]
    refine ⟨?_, ?_, ?_, fun _ => hproc⟩
    · rw [hproc, hnil]
      simp
    · rw [hproc]
      exact hq
    · rw [hproc]
      intro it hit
      exact Or.inl hit
  · have hmk : mkUploadItems uuids 0 ((files.take (5 - queue.length)).filter
        (fun file => file.ftype == "application/pdf")) ≠ [] := by
      intro h
      apply hnil
      have hl := mkUploadItems_length uuids 0 ((files.take (5 - queue.length)).filter
        (fun file => file.ftype == "application/pdf"))
      rw [h] at hl
      exact List.length_eq_zero.mp hl.symm
    have hproc : processFiles uuids queue files
        = queue ++ mkUploadItems uuids 0 ((files.take (5 - queue.length)).filter
            (fun file => file.ftype == "application/pdf")) := by
      unfold processFiles
      rw [hslice, if_neg hmk]
    have hlen : (processFiles uuids queue files).length
        = queue.length + ((files.take (5 - queue.length)).filter
            (fun file => file.ftype == "application/pdf")).length := by
      rw [hproc]
      simp [mkUploadItems_length]
    have htake : ((files.take (5 - queue.length)).filter
        (fun file => file.ftype == "application/pdf")).length
          ≤ 5 - queue.length :=
      le_trans (List.length_filter_le _ _) (List.length_take_le _ _)
    refine ⟨hlen, ?_, ?_, ?_⟩
    · rw [hlen]
      omega
    · rw [hproc]
      intro it hit
      rcases List.mem_append.mp hit with h | h
      · exact Or.inl h
      · right
        have hf := mkUploadItems_file_mem uuids 0 _ it h
        have hmem := List.mem_filter.mp hf
        simpa using hmem.2
    · intro h
      exact absurd h hnil

/-- Witness for C10's amended theorem: from an empty queue, one PDF and one
non-PDF file yield exactly one new queue item. -/
theorem upload_queue_bounded_witness :
    ([] : List UploadItem).length ≤ 5
    ∧ (processFiles (fun _ => "u1") [] [pdfFile, txtFile]).length
        = ([] : List UploadItem).length
          + (([pdfFile, txtFile].take (5 - ([] : List UploadItem).length)).filter
              (fun file => file.ftype == "application/pdf")).length :=
  ⟨by decide, (upload_queue_bounded (fun _ => "u1") [] [pdfFile, txtFile] (by decide)).1⟩

end CommissionTracker
